import Mathlib

/-!
Shallow embedding of the Twitter interaction client
(`TwitterInteractionClient` in the repository source): the conversation
thread builder (`buildConversationThread` / `processThread`), the poll
cycle (`handleTwitterInteractions`) and the reply pipeline
(`handleTweet`), together with proofs about the claims of the
specification.

External collaborators (platform client, memory store, LLM runtime,
cache) are modelled as explicit environment records whose fields give
the result of each call; a call that can throw is modelled with
`Option`/`Except` or a Boolean failure flag.  Persistence side effects
that cannot influence the values the claims speak about (memory-record
creation during thread traversal, request-message saving) are either
tracked as effect tags or noted where omitted.
-/

/-- A platform post, after the source's `Tweet` type (fields used by the
interaction client).  `timestamp` is epoch seconds (optional, as in the
source where `tweet.timestamp ?? 0` is used); `photos` keeps only the
urls. -/
structure Tweet where
  id : String := ""
  userId : String := ""
  username : String := ""
  name : String := ""
  text : String := ""
  timestamp : Option Nat := none
  isReply : Bool := false
  isRetweet : Bool := false
  inReplyToStatusId : Option String := none
  conversationId : String := ""
  photos : List String := []
deriving DecidableEq

/-- Exact decimal parse of a digit string, the mathematical value that
`BigInt(tweet.id)` yields in the source (and that `Number.parseInt`
yields for ids below 2^53). -/
def parseDecimal (s : String) : Nat :=
  s.data.foldl (fun n c => n * 10 + (c.toNat - 48)) 0

/-- Environment of the thread builder: `getTweet` models
`twitterClient.getTweet`, returning `none` both when the platform
reports no such post and when the fetch throws (the source catches the
error and stops the walk either way). -/
structure BCTEnv where
  getTweet : String → Option Tweet

/-- The recursive walk `processThread` of `buildConversationThread`.
`fuel` is `maxReplies - depth`, so `fuel = 0` is exactly the source's
`depth >= maxReplies` early return.  State threaded through: the
`visited` id set and the accumulated `thread` (the source `unshift`s the
current post, so the front of the list is the deepest post reached).
The memory-persistence side effect performed for each visited post
(lines between the depth check and the visited check in the source)
writes only to the external store and cannot change `visited`, `thread`
or the control flow, so it is not tracked here. -/
def processThread (env : BCTEnv) : Nat → Tweet → List String → List Tweet → List String × List Tweet
  | 0, _, visited, thread => (visited, thread)
  | fuel + 1, t, visited, thread =>
    if t.id ∈ visited then (visited, thread)
    else
      let visited' := t.id :: visited
      let thread' := t :: thread
      match t.inReplyToStatusId with
      | none => (visited', thread')
      | some pid =>
        match env.getTweet pid with
        | none => (visited', thread')
        | some parent => processThread env fuel parent visited' thread'

/-- `buildConversationThread(tweet, maxReplies = 10)`: runs the walk
from the leaf with depth 0 (full fuel) and returns the accumulated
thread, deepest ancestor first. -/
def buildConversationThread (env : BCTEnv) (tweet : Tweet) (maxReplies : Nat) : List Tweet :=
  (processThread env maxReplies tweet [] []).2

/-- A concrete chain used for the thread-bound claim: post `i` replies
to post `i+1`, for `i < 15`; post `15` is the root, so the leaf `0` has
a chain of 15 linked parents. -/
def mkChainTweet (i : Nat) : Tweet :=
  { id := toString i
    userId := "author"
    inReplyToStatusId := if i < 15 then some (toString (i + 1)) else none }

/-- The 16 posts of the chain. -/
def chainTweets : List Tweet := (List.range 16).map mkChainTweet

/-- Platform client serving exactly the chain posts. -/
def chainEnv : BCTEnv := ⟨fun s => chainTweets.find? (fun t => t.id == s)⟩

/-- Lexicographic comparison of character lists by code point, the order
`a.id.localeCompare(b.id)` induces on the ASCII digit strings used as
post ids (collation of `'0'..'9'` agrees with code-point order). -/
def lexLe : List Char → List Char → Bool
  | [], _ => true
  | _ :: _, [] => false
  | a :: as, b :: bs => if a = b then lexLe as bs else decide (a.toNat < b.toNat)

/-- Whether `needle` is a prefix of `hay` (character lists). -/
def hasPrefixChars : List Char → List Char → Bool
  | [], _ => true
  | _ :: _, [] => false
  | a :: as, b :: bs => a == b && hasPrefixChars as bs

/-- Whether `needle` occurs as a contiguous subsequence of `hay`:
`String.prototype.includes`. -/
def containsSeq (needle : List Char) : List Char → Bool
  | [] => needle.isEmpty
  | c :: rest => hasPrefixChars needle (c :: rest) || containsSeq needle rest

/-- The single-quote character (code 39). -/
def squote : Char := Char.ofNat 39

/-- The character class `['"]` of the source's quote-stripping regex. -/
def isQuoteChar (c : Char) : Bool := c == squote || c == '"'

/-- JavaScript `LineTerminator` characters, which `.` in a regex without
the `s` flag does not match. -/
def isLineTerminator (c : Char) : Bool :=
  c == '\n' || c == '\r' || c.toNat == 8232 || c.toNat == 8233

/-- `removeQuotes(str) = str.replace(/^['"](.*)['"]$/, "$1")`: the
anchored regex matches exactly when the string has at least two
characters, its first and its last character are each a quote character
(not necessarily the same), and no character in between is a line
terminator (`.` excludes those); on a match the replacement keeps only
the middle, otherwise the string is unchanged. -/
def removeQuotes (s : String) : String :=
  let l := s.data
  if decide (2 ≤ l.length) && isQuoteChar (l.headD ' ') && isQuoteChar (l.getLastD ' ')
      && ((l.drop 1).dropLast.all fun c => !isLineTerminator c)
  then String.mk ((l.drop 1).dropLast) else s

/-- Environment of one poll cycle (`handleTwitterInteractions`).  Each
field fixes the outcome of one collaborator call during the cycle:
`mentions` is the mention search (it can throw, aborting the cycle into
the outer catch); `userFetch` the per-target-user search (its errors are
caught per user); `pick` the value of `Math.floor(Math.random() * len)`
before the modulus; `existingResponse` whether
`messageManager.getMemoryById` finds a prior response for a tweet id;
`failing` whether the per-candidate processing (`handleTweet` and the
calls before it) throws for a tweet id; `cacheOk` whether the final
`cacheLatestCheckedTweetId` call succeeds.  `lastChecked` is the value
of `client.lastCheckedTweetId` when the cycle starts, `nowMs` the value
of `Date.now()`. -/
structure Env where
  profileId : String := ""
  targetUsers : List String := []
  mentions : Except Unit (List Tweet) := .ok []
  userFetch : String → Except Unit (List Tweet) := fun _ => .ok []
  pick : String → Nat := fun _ => 0
  nowMs : Nat := 0
  lastChecked : Option Nat := none
  existingResponse : String → Bool := fun _ => false
  failing : String → Bool := fun _ => false
  cacheOk : Bool := true

/-- The target-user tweet filter (the `validTweets` predicate): not
already processed (`Number.parseInt(id) > lastCheckedTweetId` when the
marker is set), not a reply, not a retweet, and
`Date.now() - (timestamp ?? 0) * 1000 < 2*60*60*1000` (JavaScript
subtraction, hence computed in `Int`). -/
def validTargetTweet (env : Env) (t : Tweet) : Bool :=
  (match env.lastChecked with
   | none => true
   | some v => decide (v < parseDecimal t.id))
  && !t.isReply && !t.isRetweet
  && decide ((env.nowMs : Int) - (t.timestamp.getD 0 : Int) * 1000 < 7200000)

/-- One target user's contribution to the candidate set: fetch the
user's recent tweets (errors caught and logged per user), filter with
`validTargetTweet`, and pick one valid tweet at random
(`valid[Math.floor(Math.random() * valid.length)]`); `none` when the
fetch failed or no tweet qualified. -/
def selectedFor (env : Env) (u : String) : Option Tweet :=
  match env.userFetch u with
  | .error _ => none
  | .ok ts =>
    let valid := ts.filter (validTargetTweet env)
    valid.get? (env.pick u % valid.length)

/-- The one-per-user selections, in target-user order (the source's
`Map` iterates in insertion order, which is the target-user order). -/
def selectedTweets (env : Env) : List Tweet :=
  env.targetUsers.filterMap (selectedFor env)

/-- The dispatch ordering on tweets: ascending lexicographic comparison
of the id strings (`(a, b) => a.id.localeCompare(b.id)`). -/
def idLe (a b : Tweet) : Prop := lexLe a.id.data b.id.data = true

instance : DecidableRel idLe := fun a b => by unfold idLe; infer_instance

/-- `uniqueTweetCandidates` just before the dispatch loop: mentions,
plus the one-per-user selections when a non-empty target-user list is
configured, sorted ascending by id and with the agent's own tweets
filtered out (`tweet.userId !== profile.id`). `[]` when the mention
fetch threw (the cycle aborts before dispatching anything). -/
def dispatchList (env : Env) : List Tweet :=
  match env.mentions with
  | .error _ => []
  | .ok ms =>
    let cands := if env.targetUsers.isEmpty then ms else ms ++ selectedTweets env
    (List.insertionSort idLe cands).filter fun t => t.userId != env.profileId

/-- Observable outcome of the dispatch loop and of a cycle: the final
`lastCheckedTweetId`, the successive values assigned to it (`trace`, in
assignment order), the ids for which the per-candidate processing was
started (`dispatched`), and whether an uncaught error reached the
cycle's outer catch (`err`). -/
structure CycleResult where
  marker : Option Nat
  trace : List Nat
  dispatched : List String
  err : Bool
deriving DecidableEq

/-- The dispatch-loop guard: process a candidate only when
`lastCheckedTweetId` is unset or `BigInt(tweet.id)` exceeds it. -/
def dispatchGuard (m : Option Nat) (t : Tweet) : Bool :=
  match m with
  | none => true
  | some v => decide (v < parseDecimal t.id)

/-- The dispatch loop of `handleTwitterInteractions`: for each candidate
in order, skip it unless the marker is unset or `BigInt(id)` exceeds it;
skip it when a response memory already exists; otherwise process it
(`handleTweet` and the preparation before it) — when that throws, the
loop is abandoned with the marker untouched; when it returns, assign
`lastCheckedTweetId = BigInt(id)` and continue. -/
def processCandidates (env : Env) : List Tweet → Option Nat → CycleResult
  | [], m => ⟨m, [], [], false⟩
  | t :: ts, m =>
    if dispatchGuard m t then
      if env.existingResponse t.id then processCandidates env ts m
      else if env.failing t.id then ⟨m, [], [t.id], true⟩
      else
        let p := parseDecimal t.id
        let r := processCandidates env ts (some p)
        ⟨r.marker, p :: r.trace, t.id :: r.dispatched, r.err⟩
    else processCandidates env ts m

/-- The body of the `try` block of `handleTwitterInteractions`: fetch
mentions (a throw aborts the whole cycle), build and dispatch the
candidate list, then persist the marker (`cacheLatestCheckedTweetId`,
whose throw also reaches the outer catch). -/
def cycleBody (env : Env) : CycleResult :=
  match env.mentions with
  | .error _ => ⟨env.lastChecked, [], [], true⟩
  | .ok _ =>
    let r := processCandidates env (dispatchList env) env.lastChecked
    if r.err then r
    else if env.cacheOk then r
    else ⟨r.marker, r.trace, r.dispatched, true⟩

/-- `handleTwitterInteractions`: the whole body after the (throw-free)
`profile?.username` read runs inside one `try`; the `catch` only logs.
The embedding keeps an `Except` return type so that an uncaught
propagation would be representable: the Boolean records whether the
catch handler ran (logged an error). -/
def handleTwitterInteractions (env : Env) : Except Unit (CycleResult × Bool) :=
  let r := cycleBody env
  if r.err then .ok (r, true) else .ok (r, false)

/-- Environment of the reply pipeline (`handleTweet`) for one
candidate: `tweetExists` is the result of the idempotent-create lookup,
`shouldRespond` the raw output of the small-model classification call,
`responseText` the `text` field of the parsed generation output, and
`publishFails` whether anything inside the live-mode publish `try`
throws (its catch only logs). -/
structure HTEnv where
  profileId : String := ""
  targetUsers : List String := []
  isDryRun : Bool := false
  tweetExists : Bool := true
  shouldRespond : String := ""
  responseText : String := ""
  publishFails : Bool := false

/-- Externally observable steps of the reply pipeline, in program
order. -/
inductive HTEffect where
  | logSkipNoText
  | imageDescription
  | saveRequestMemory
  | shouldRespondCall
  | notRespondLog
  | generateCall
  | dryRunLog
  | updateState
  | createReplyMemory
  | processActions
  | cacheTranscript
  | waitDelay
  | publishErrorLog
deriving DecidableEq

/-- The self-authorship guard at the top of `handleTweet`: skip when the
tweet is from the agent's own profile id AND its author handle is not in
the target-user list. -/
def skipsSelf (env : HTEnv) (t : Tweet) : Bool :=
  t.userId == env.profileId && !(env.targetUsers.contains t.username)

/-- The literal token the classification output must contain to
proceed. -/
def respondToken : String := "RESPOND"

/-- The reply pipeline `handleTweet`, as the sequence of effects it
performs for one candidate (the message text is `tweet.text`, as built
by the poller).  Structure, in source order: self guard; empty-text
guard; per-photo image description (their errors are caught, the
enrichment degrades); request-memory save when the tweet is not yet
stored; classification call, aborting unless the output contains
`RESPOND`; generation call; quote stripping; then — only when the
stripped text is non-empty — either the dry-run log, or the live
publish block whose `try` covers state update, reply-memory creation,
action processing (which publishes via the send callback), transcript
caching and the rate-limit delay, and whose `catch` only logs.  A throw
inside that `try` is collapsed to its logged outcome. -/
def handleTweet (env : HTEnv) (t : Tweet) : List HTEffect :=
  if skipsSelf env t then []
  else if t.text == "" then [.logSkipNoText]
  else
    let pre := t.photos.map (fun _ => HTEffect.imageDescription)
      ++ (if env.tweetExists then [] else [HTEffect.saveRequestMemory])
      ++ [HTEffect.shouldRespondCall]
    if !containsSeq respondToken.data env.shouldRespond.data then
      pre ++ [HTEffect.notRespondLog]
    else
      let gen := pre ++ [HTEffect.generateCall]
      if removeQuotes env.responseText == "" then gen
      else if env.isDryRun then gen ++ [HTEffect.dryRunLog]
      else if env.publishFails then gen ++ [HTEffect.publishErrorLog]
      else gen ++ [HTEffect.updateState, HTEffect.createReplyMemory,
        HTEffect.processActions, HTEffect.cacheTranscript, HTEffect.waitDelay]

/-- Mention candidate with id `"9"`. -/
def t9 : Tweet := { id := "9", userId := "u1", username := "ann", text := "hey" }

/-- Mention candidate with id `"10"`. -/
def t10 : Tweet := { id := "10", userId := "u2", username := "ben", text := "yo" }

/-- Cycle with the two mention candidates `"9"` and `"10"`. -/
def envC3 : Env := { profileId := "me", mentions := .ok [t9, t10] }

/-- Candidate whose per-candidate processing throws. -/
def t3f : Tweet := { id := "3", userId := "u1", text := "a" }

/-- Candidate after the failing one. -/
def t7n : Tweet := { id := "7", userId := "u2", text := "b" }

/-- Cycle where the first candidate's reply pipeline throws. -/
def envC2X : Env :=
  { profileId := "me", mentions := .ok [t3f, t7n], failing := fun s => s == "3" }

/-- A post authored by the agent itself whose handle is in the
target-user list. -/
def selfTweet : Tweet := { id := "4", userId := "me", username := "alice", text := "mine" }

/-- Cycle whose only mention candidate is the agent's own post, with
the agent's handle configured as a target user. -/
def envC5 : Env :=
  { profileId := "me", targetUsers := ["alice"], mentions := .ok [selfTweet] }

/-- Reply-pipeline environment with the agent's handle in the
target-user list. -/
def henvC5 : HTEnv := { profileId := "me", targetUsers := ["alice"] }

/-- A fresh, original target-user post. -/
def t6sel : Tweet :=
  { id := "7", userId := "ua", username := "alice", text := "x", timestamp := some 600 }

/-- Cycle configured with one target user whose fetch returns `t6sel`. -/
def envC6 : Env :=
  { lastChecked := some 5, nowMs := 1000000, targetUsers := ["alice"],
    userFetch := fun _ => .ok [t6sel] }

/-- Candidate fed to the reply pipeline in the dry-run scenarios. -/
def tC8 : Tweet := { id := "1", userId := "u1", username := "bob", text := "hi" }

/-- Dry-run pipeline environment whose generation output is `hello`. -/
def envC8W : HTEnv :=
  { profileId := "me", isDryRun := true, shouldRespond := "RESPOND",
    responseText := "hello" }

/-- Dry-run pipeline environment whose generation output is the
two-character string of two single quotes (non-empty, but empty after
quote stripping). -/
def envC8X : HTEnv :=
  { profileId := "me", isDryRun := true, shouldRespond := "RESPOND",
    responseText := String.mk [squote, squote] }

/-- A string wrapped in two different quote characters: a single quote,
then `abc`, then a double quote. -/
def mismatchStr : String := String.mk [squote, 'a', 'b', 'c', '"']

/-- The walk adds at most one post per unit of fuel, so the thread grows
by at most `fuel` entries. -/
theorem processThread_length_le (env : BCTEnv) :
    ∀ (fuel : Nat) (t : Tweet) (visited : List String) (thread : List Tweet),
      (processThread env fuel t visited thread).2.length ≤ fuel + thread.length := by
  intro fuel
  induction fuel with
  | zero => intro t visited thread; simp [processThread]
  | succ n ih =>
    intro t visited thread
    unfold processThread
    split
    · simp
    · cases h : t.inReplyToStatusId with
      | none => simp; omega
      | some pid =>
        simp only [h]
        cases hp : env.getTweet pid with
        | none => simp; omega
        | some parent =>
          have := ih parent (t.id :: visited) (t :: thread)
          simp only [List.length_cons] at this
          simpa using Nat.le_trans this (by omega)

/-- Invariant of the walk: when the accumulated thread has pairwise
distinct ids all recorded in `visited`, the walk preserves both facts
(each post is added only after its id passes the visited check, and its
id enters `visited` at the same time). -/
theorem processThread_nodup (env : BCTEnv) :
    ∀ (fuel : Nat) (t : Tweet) (visited : List String) (thread : List Tweet),
      (thread.map (fun x => x.id)).Nodup →
      (∀ i ∈ thread.map (fun x => x.id), i ∈ visited) →
      ((processThread env fuel t visited thread).2.map (fun x => x.id)).Nodup ∧
        ∀ i ∈ (processThread env fuel t visited thread).2.map (fun x => x.id),
          i ∈ (processThread env fuel t visited thread).1 := by
  intro fuel
  induction fuel with
  | zero => intro t visited thread h1 h2; exact ⟨h1, h2⟩
  | succ n ih =>
    intro t visited thread h1 h2
    unfold processThread
    split
    · exact ⟨h1, h2⟩
    · rename_i hvis
      have hnotin : t.id ∉ thread.map (fun x => x.id) := fun hin => hvis (h2 _ hin)
      have h1' : ((t :: thread).map (fun x => x.id)).Nodup := by
        rw [List.map_cons, List.nodup_cons]
        exact ⟨hnotin, h1⟩
      have h2' : ∀ i ∈ (t :: thread).map (fun x => x.id), i ∈ t.id :: visited := by
        intro i hi
        rw [List.map_cons, List.mem_cons] at hi
        rcases hi with h | h
        · exact h ▸ List.mem_cons_self _ _
        · exact List.mem_cons_of_mem _ (h2 _ h)
      cases h : t.inReplyToStatusId with
      | none => exact ⟨h1', h2'⟩
      | some pid =>
        simp only [h]
        cases hp : env.getTweet pid with
        | none => exact ⟨h1', h2'⟩
        | some parent => exact ih parent (t.id :: visited) (t :: thread) h1' h2'

/-- C1 (counterexample): on the chain of 15 linked parents with
`maxDepth = 10`, the thread has 10 entries, not the claimed 11 — the
leaf is processed at depth 0, so the walk stops after the leaf and 9
parents. -/
theorem c1_counterexample :
    ¬ (buildConversationThread chainEnv (mkChainTweet 0) 10).length = 11 := by decide

/-- C1 (amended): for a leaf at the head of a chain of 15 linked
parents and `maxDepth = 10`, `buildConversationThread` returns exactly
10 posts — the leaf plus 9 parents — and in general the thread never
has more entries than `maxDepth`; the walk terminates when the depth
reaches `maxDepth`, when a parent is null/unfetchable, or when a post's
id was already visited in this call. -/
theorem c1_thread_bound :
    (buildConversationThread chainEnv (mkChainTweet 0) 10).length = 10 ∧
      ∀ (env : BCTEnv) (t : Tweet) (maxReplies : Nat),
        (buildConversationThread env t maxReplies).length ≤ maxReplies := by
  refine ⟨by decide, ?_⟩
  intro env t maxReplies
  have := processThread_length_le env maxReplies t [] []
  simpa [buildConversationThread] using this

/-- Two distinct characters have distinct code points. -/
theorem char_toNat_injective {a b : Char} (h : a.toNat = b.toNat) : a = b :=
  Char.eq_of_val_eq (UInt32.toNat.inj h)

/-- `lexLe` is total. -/
theorem lexLe_total : ∀ x y : List Char, lexLe x y = true ∨ lexLe y x = true := by
  intro x
  induction x with
  | nil => intro y; left; rfl
  | cons a as ih =>
    intro y
    cases y with
    | nil => right; rfl
    | cons b bs =>
      by_cases hab : a = b
      · subst hab
        rcases ih bs with h | h
        · left; simpa [lexLe] using h
        · right; simpa [lexLe] using h
      · have hba : b ≠ a := fun he => hab he.symm
        rcases Nat.lt_or_ge a.toNat b.toNat with h | h
        · left; simp [lexLe, hab, h]
        · have hne : b.toNat ≠ a.toNat := fun he => hba (char_toNat_injective he)
          have hlt : b.toNat < a.toNat := Nat.lt_of_le_of_ne h hne
          right; simp [lexLe, hba, hlt]

/-- C9 (confirmed): for every platform client, leaf post and depth
bound — including clients whose `inReplyToStatusId` links form a
cycle — the thread returned by `buildConversationThread` has pairwise
distinct post ids, because a post is appended only after its id passes
the visited-set check. -/
theorem c9_thread_ids_nodup :
    ∀ (env : BCTEnv) (t : Tweet) (maxReplies : Nat),
      ((buildConversationThread env t maxReplies).map (fun x => x.id)).Nodup := by
  intro env t maxReplies
  exact (processThread_nodup env maxReplies t [] [] (by simp) (by simp)).1

/-- `lexLe` is transitive. -/
theorem lexLe_trans :
    ∀ x y z : List Char, lexLe x y = true → lexLe y z = true → lexLe x z = true := by
  intro x
  induction x with
  | nil => intro y z _ _; rfl
  | cons a as ih =>
    intro y z hxy hyz
    cases y with
    | nil => simp [lexLe] at hxy
    | cons b bs =>
      cases z with
      | nil => simp [lexLe] at hyz
      | cons c cs =>
        by_cases hab : a = b
        · subst hab
          by_cases hbc : a = c
          · subst hbc
            simp only [lexLe, if_pos rfl] at hxy hyz ⊢
            exact ih bs cs hxy hyz
          · simp only [lexLe, if_neg hbc] at hyz ⊢
            exact hyz
        · simp only [lexLe, if_neg hab, decide_eq_true_eq] at hxy
          by_cases hbc : b = c
          · subst hbc
            simp only [lexLe, if_neg hab, decide_eq_true_eq]
            exact hxy
          · simp only [lexLe, if_neg hbc, decide_eq_true_eq] at hyz
            have hac : a.toNat < c.toNat := Nat.lt_trans hxy hyz
            have hane : a ≠ c := fun he => by
              rw [he] at hac; exact Nat.lt_irrefl _ hac
            simp only [lexLe, if_neg hane, decide_eq_true_eq]
            exact hac

instance : IsTrans Tweet idLe :=
  ⟨fun _ _ _ h1 h2 => lexLe_trans _ _ _ h1 h2⟩

instance : IsTotal Tweet idLe :=
  ⟨fun a b => lexLe_total a.id.data b.id.data⟩

/-- C3 (confirmed): the candidate list handed to the dispatch loop is
sorted ascending by `localeCompare` on the id strings — lexicographic,
not numeric; in particular candidates with ids `"9"` and `"10"` are
dispatched with `"10"` before `"9"`. -/
theorem c3_dispatch_order :
    (∀ env : Env, (dispatchList env).Sorted idLe) ∧
      (dispatchList envC3).map (fun t => t.id) = ["10", "9"] := by
  constructor
  · intro env
    unfold dispatchList
    cases h : env.mentions with
    | error e => simp
    | ok ms =>
      simp only
      exact List.Pairwise.sublist (List.filter_sublist _) (List.sorted_insertionSort idLe _)
  · decide

/-- At each assignment during the dispatch loop the marker strictly
increases: the trace of marker values, prefixed with the initial
marker when set, is a strictly increasing chain. -/
theorem processCandidates_chain (env : Env) :
    ∀ (ts : List Tweet) (m : Option Nat),
      List.Chain' (fun a b => a < b) (m.toList ++ (processCandidates env ts m).trace) := by
  intro ts
  induction ts with
  | nil => intro m; cases m <;> simp [processCandidates]
  | cons t ts ih =>
    intro m
    unfold processCandidates
    split
    · rename_i hg
      split
      · exact ih m
      · split
        · cases m <;> simp
        · have h2 := ih (some (parseDecimal t.id))
          cases m with
          | none => simpa using h2
          | some v =>
            have hv : v < parseDecimal t.id := by simpa [dispatchGuard] using hg
            simp only [Option.toList, List.cons_append, List.nil_append] at h2 ⊢
            exact List.chain'_cons.mpr ⟨hv, h2⟩
    · exact ih m

/-- C4 (confirmed): across one poll cycle the `lastChecked` marker never
decreases — every assignment is to a value strictly greater than the
previous marker value (or is the first value when the marker was
unset), and an unrecovered per-candidate error only truncates the
sequence of assignments. -/
theorem c4_marker_monotone :
    ∀ env : Env,
      List.Chain' (fun a b => a < b)
        (env.lastChecked.toList ++ (cycleBody env).trace) := by
  intro env
  unfold cycleBody
  cases h : env.mentions with
  | error e =>
    simp only
    cases env.lastChecked <;> simp
  | ok ms =>
    simp only
    split
    · exact processCandidates_chain env _ _
    · split
      · exact processCandidates_chain env _ _
      · simpa using processCandidates_chain env (dispatchList env) env.lastChecked

/-- Every candidate dispatched from a loop whose marker starts at
`some v` has an id parsing strictly above `v` (the dispatch guard). -/
theorem processCandidates_dispatched_gt (env : Env) :
    ∀ (ts : List Tweet) (v : Nat) (i : String),
      i ∈ (processCandidates env ts (some v)).dispatched → v < parseDecimal i := by
  intro ts
  induction ts with
  | nil => intro v i h; simp [processCandidates] at h
  | cons t ts ih =>
    intro v i h
    unfold processCandidates at h
    split at h
    · rename_i hg
      have hv : v < parseDecimal t.id := by simpa [dispatchGuard] using hg
      split at h
      · exact ih v i h
      · split at h
        · simp at h
          subst h
          exact hv
        · simp only [List.mem_cons] at h
          rcases h with h | h
          · subst h; exact hv
          · exact Nat.lt_trans hv (ih (parseDecimal t.id) i h)
    · exact ih v i h

/-- One unfolding step of the dispatch loop. -/
theorem processCandidates_cons (env : Env) (t : Tweet) (ts : List Tweet) (m : Option Nat) :
    processCandidates env (t :: ts) m =
      if dispatchGuard m t then
        if env.existingResponse t.id then processCandidates env ts m
        else if env.failing t.id then ⟨m, [], [t.id], true⟩
        else
          ⟨(processCandidates env ts (some (parseDecimal t.id))).marker,
            parseDecimal t.id :: (processCandidates env ts (some (parseDecimal t.id))).trace,
            t.id :: (processCandidates env ts (some (parseDecimal t.id))).dispatched,
            (processCandidates env ts (some (parseDecimal t.id))).err⟩
      else processCandidates env ts m := rfl

/-- When a dispatched candidate's processing throws, it is the last
candidate dispatched in the loop and every marker value assigned in the
loop is strictly below its id. -/
theorem processCandidates_failing_last (env : Env) :
    ∀ (ts : List Tweet) (m : Option Nat) (i : String),
      i ∈ (processCandidates env ts m).dispatched → env.failing i = true →
      (processCandidates env ts m).dispatched.getLast? = some i ∧
        ∀ v ∈ (processCandidates env ts m).trace, v < parseDecimal i := by
  intro ts
  induction ts with
  | nil => intro m i h _; simp [processCandidates] at h
  | cons t ts ih =>
    intro m i h hfail
    rw [processCandidates_cons] at h ⊢
    by_cases hg : dispatchGuard m t = true
    · rw [if_pos hg] at h ⊢
      by_cases hex : env.existingResponse t.id = true
      · rw [if_pos hex] at h ⊢
        exact ih m i h hfail
      · rw [if_neg hex] at h ⊢
        by_cases hfl : env.failing t.id = true
        · rw [if_pos hfl] at h ⊢
          dsimp only at h ⊢
          simp only [List.mem_singleton] at h
          subst h
          exact ⟨rfl, by intro v hv; simp at hv⟩
        · rw [if_neg hfl] at h ⊢
          dsimp only at h ⊢
          simp only [List.mem_cons] at h
          rcases h with rfl | h
          · exact absurd hfail hfl
          · obtain ⟨hlast, htr⟩ := ih (some (parseDecimal t.id)) i h hfail
            constructor
            · rw [List.getLast?_cons, hlast]; rfl
            · intro v hv
              simp only [List.mem_cons] at hv
              rcases hv with rfl | hv
              · exact processCandidates_dispatched_gt env ts (parseDecimal t.id) i h
              · exact htr v hv
    · rw [if_neg hg] at h ⊢
      exact ih m i h hfail

/-- The cycle's trailing steps (marker persistence and its error flag)
leave the dispatch loop's `dispatched` and `trace` untouched. -/
theorem cycleBody_fields (env : Env) (ms : List Tweet) (h : env.mentions = .ok ms) :
    (cycleBody env).dispatched
        = (processCandidates env (dispatchList env) env.lastChecked).dispatched ∧
      (cycleBody env).trace
        = (processCandidates env (dispatchList env) env.lastChecked).trace := by
  unfold cycleBody
  rw [h]
  dsimp only
  split
  · exact ⟨rfl, rfl⟩
  · split
    · exact ⟨rfl, rfl⟩
    · exact ⟨rfl, rfl⟩

/-- C2 (counterexample): a cycle with candidates `"3"` and `"7"` where
the reply pipeline throws for `"3"`: contrary to the claim,
`lastChecked` does not advance past the failing candidate (the marker
stays unset) and the subsequent candidate `"7"` is never dispatched. -/
theorem c2_counterexample :
    (cycleBody envC2X).marker = none ∧ "7" ∉ (cycleBody envC2X).dispatched := by decide

/-- C2 (amended): when the reply pipeline throws for one candidate
during a poll cycle, the error is caught only by the cycle's outer
handler: the failing candidate is the last one dispatched in that
cycle — no subsequent candidate is processed — and `lastChecked` is
never advanced to the failing candidate's id. -/
theorem c2_failing_halts (env : Env) (i : String)
    (hmem : i ∈ (cycleBody env).dispatched) (hfail : env.failing i = true) :
    (cycleBody env).dispatched.getLast? = some i ∧
      parseDecimal i ∉ (cycleBody env).trace := by
  cases h : env.mentions with
  | error e =>
    unfold cycleBody at hmem
    rw [h] at hmem
    simp at hmem
  | ok ms =>
    obtain ⟨hd, ht⟩ := cycleBody_fields env ms h
    rw [hd] at hmem
    rw [hd, ht]
    obtain ⟨h1, h2⟩ :=
      processCandidates_failing_last env (dispatchList env) env.lastChecked i hmem hfail
    exact ⟨h1, fun hin => Nat.lt_irrefl _ (h2 _ hin)⟩

/-- Witness for the amended C2 on the concrete failing cycle. -/
theorem c2_failing_halts_witness :
    (cycleBody envC2X).dispatched.getLast? = some "3" ∧
      parseDecimal "3" ∉ (cycleBody envC2X).trace :=
  c2_failing_halts envC2X "3" (by decide) (by decide)

/-- C5 (counterexample): a candidate authored by the agent's own
profile id whose handle IS in the target-user list is still not
dispatched — the poll cycle's filter drops every self-authored
candidate before dispatch, so the claim's "in which case it is
dispatched" fails. -/
theorem c5_counterexample :
    selfTweet.userId = envC5.profileId ∧
      envC5.targetUsers.contains selfTweet.username = true ∧
      selfTweet ∉ dispatchList envC5 := by decide

/-- C5 (amended): a candidate authored by the agent's own profile id is
never dispatched from the poll cycle, regardless of target-user
membership (the candidate filter excludes it unconditionally); the
reply pipeline's own self-guard, which would skip a self-authored
tweet, is disabled whenever the author's handle is in the target-user
list. -/
theorem c5_self_never_dispatched (env : Env) (henv : HTEnv) (t s : Tweet)
    (hmem : t ∈ dispatchList env)
    (hs : henv.targetUsers.contains s.username = true) :
    t.userId ≠ env.profileId ∧ skipsSelf henv s = false := by
  constructor
  · unfold dispatchList at hmem
    cases h : env.mentions with
    | error e => rw [h] at hmem; simp at hmem
    | ok ms =>
      rw [h] at hmem
      dsimp only at hmem
      have hf := (List.mem_filter.mp hmem).2
      simpa using hf
  · simp only [skipsSelf, Bool.and_eq_false_iff]
    right
    simpa using hs

/-- Witness for the amended C5: a genuine mention is dispatched with a
non-self author, and the pipeline guard is off for a target-user self
post. -/
theorem c5_witness :
    t9.userId ≠ envC3.profileId ∧ skipsSelf henvC5 selfTweet = false :=
  c5_self_never_dispatched envC3 henvC5 t9 selfTweet (by decide) (by decide)

/-- C6 (confirmed): a post selected as a target user's candidate
passes the `validTweets` filter: it is not a reply, not a retweet,
was authored within the last 2 hours (`Date.now() - ts*1000 <
7200000`), and its id parses strictly above `lastChecked` when the
marker is set; hence a reply, a retweet or a stale post is never
selected. -/
theorem c6_target_filter (env : Env) (u : String) (t : Tweet)
    (h : selectedFor env u = some t) :
    t.isReply = false ∧ t.isRetweet = false ∧
      ((env.nowMs : Int) - (t.timestamp.getD 0 : Int) * 1000 < 7200000) ∧
      ∀ v, env.lastChecked = some v → v < parseDecimal t.id := by
  unfold selectedFor at h
  cases hf : env.userFetch u with
  | error e => rw [hf] at h; simp at h
  | ok ts =>
    rw [hf] at h
    dsimp only at h
    have hmem : t ∈ ts.filter (validTargetTweet env) := by
      obtain ⟨hlt, hget⟩ := List.get?_eq_some.mp h
      exact hget ▸ List.get_mem _ _ _
    have hv := (List.mem_filter.mp hmem).2
    unfold validTargetTweet at hv
    simp only [Bool.and_eq_true, Bool.not_eq_true', decide_eq_true_eq] at hv
    obtain ⟨⟨⟨h1, h2⟩, h3⟩, h4⟩ := hv
    refine ⟨h2, h3, h4, ?_⟩
    intro v hvv
    rw [hvv] at h1
    simpa using h1

/-- Witness for C6 on a concrete selected target-user post. -/
theorem c6_witness :
    t6sel.isReply = false ∧ t6sel.isRetweet = false ∧
      ((envC6.nowMs : Int) - (t6sel.timestamp.getD 0 : Int) * 1000 < 7200000) ∧
      ∀ v, envC6.lastChecked = some v → v < parseDecimal t6sel.id :=
  c6_target_filter envC6 "alice" t6sel (by decide)

/-- C7 (counterexample): a string wrapped in two DIFFERENT quote
characters — a single quote in front, a double quote at the end — is
also stripped by `removeQuotes`, so stripping is not restricted to a
matching pair and such a string is not returned unchanged. -/
theorem c7_counterexample :
    removeQuotes mismatchStr = "abc" ∧ removeQuotes mismatchStr ≠ mismatchStr := by decide

/-- C7 (amended): `removeQuotes` strips exactly one layer of
surrounding quote characters whenever the first and the last character
are each a quote character — single or double, not necessarily the
same — and the enclosed text contains no line terminator; a string
whose first or last character is not a quote character, or that is
shorter than two characters, is returned unchanged. -/
theorem c7_strip_one_layer (a b : Char) (t : String)
    (ha : isQuoteChar a = true) (hb : isQuoteChar b = true)
    (ht : ∀ c ∈ t.data, isLineTerminator c = false) :
    removeQuotes (String.mk (a :: t.data ++ [b])) = t ∧
      ∀ s : String,
        s.data.length < 2 ∨ isQuoteChar (s.data.headD ' ') = false ∨
          isQuoteChar (s.data.getLastD ' ') = false →
        removeQuotes s = s := by
  constructor
  · have hlast : ((a :: (t.data ++ [b])).getLastD ' ') = b := by
      rw [← List.cons_append]
      exact List.getLastD_concat _ _ _
    have hdrop : ((a :: (t.data ++ [b])).drop 1).dropLast = t.data := by
      simp [List.dropLast_concat]
    have hall : (t.data.all fun c => !isLineTerminator c) = true := by
      rw [List.all_eq_true]
      intro c hc
      simp [ht c hc]
    have hcond : (decide (2 ≤ (a :: (t.data ++ [b])).length)
        && isQuoteChar ((a :: (t.data ++ [b])).headD ' ')
        && isQuoteChar ((a :: (t.data ++ [b])).getLastD ' ')
        && (((a :: (t.data ++ [b])).drop 1).dropLast.all fun c => !isLineTerminator c)) = true := by
      rw [hlast, hdrop, hall]
      simp only [List.headD_cons, ha, hb]
      simp
    show (if (decide (2 ≤ (a :: (t.data ++ [b])).length)
        && isQuoteChar ((a :: (t.data ++ [b])).headD ' ')
        && isQuoteChar ((a :: (t.data ++ [b])).getLastD ' ')
        && (((a :: (t.data ++ [b])).drop 1).dropLast.all fun c => !isLineTerminator c))
      then String.mk (((a :: (t.data ++ [b])).drop 1).dropLast)
      else String.mk (a :: (t.data ++ [b]))) = t
    rw [if_pos hcond, hdrop]
  · intro s hcase
    have hcond : (decide (2 ≤ s.data.length) && isQuoteChar (s.data.headD ' ')
        && isQuoteChar (s.data.getLastD ' ')
        && ((s.data.drop 1).dropLast.all fun c => !isLineTerminator c)) = false := by
      rcases hcase with h | h | h
      · have h2 : decide (2 ≤ s.data.length) = false := by
          simp only [decide_eq_false_iff_not]
          omega
        simp only [h2, Bool.false_and]
      · simp only [h, Bool.and_false, Bool.false_and]
      · simp only [h, Bool.and_false, Bool.false_and]
    show (if (decide (2 ≤ s.data.length) && isQuoteChar (s.data.headD ' ')
        && isQuoteChar (s.data.getLastD ' ')
        && ((s.data.drop 1).dropLast.all fun c => !isLineTerminator c))
      then String.mk ((s.data.drop 1).dropLast) else s) = s
    rw [if_neg]
    rw [hcond]
    exact Bool.false_ne_true

/-- Witness for the amended C7: a double-quote/single-quote wrapped
string is stripped to its middle. -/
theorem c7_witness :
    removeQuotes (String.mk ('"' :: "hi".data ++ [squote])) = "hi" :=
  (c7_strip_one_layer '"' squote "hi" (by decide) (by decide) (by decide)).1

/-- C8 (counterexample): dry-run on, should-respond output contains
RESPOND, and the generation output is the NON-EMPTY two-character
string of two single quotes; quote stripping empties it, so the
pipeline produces no dry-run log entry at all, contradicting the
claim that a log entry is produced for every non-empty generated
text. -/
theorem c8_counterexample :
    envC8X.isDryRun = true ∧
      containsSeq respondToken.data envC8X.shouldRespond.data = true ∧
      envC8X.responseText ≠ "" ∧
      HTEffect.dryRunLog ∉ handleTweet envC8X tC8 := by decide

/-- C8 (amended): with the dry-run flag true, a should-respond
completion containing RESPOND, and generated text that is still
non-empty after quote stripping, the reply pipeline ends in exactly a
dry-run log entry: no action processing (publication), no reply
memory creation, no debug-transcript caching and no delay. -/
theorem c8_dry_run (env : HTEnv) (t : Tweet)
    (hskip : skipsSelf env t = false)
    (htext : (t.text == "") = false)
    (hresp : containsSeq respondToken.data env.shouldRespond.data = true)
    (hne : (removeQuotes env.responseText == "") = false)
    (hdry : env.isDryRun = true) :
    (handleTweet env t).getLast? = some .dryRunLog ∧
      HTEffect.processActions ∉ handleTweet env t ∧
      HTEffect.createReplyMemory ∉ handleTweet env t ∧
      HTEffect.cacheTranscript ∉ handleTweet env t ∧
      HTEffect.waitDelay ∉ handleTweet env t := by
  have heffs : handleTweet env t =
      (t.photos.map (fun _ => HTEffect.imageDescription)
        ++ (if env.tweetExists then [] else [HTEffect.saveRequestMemory])
        ++ [HTEffect.shouldRespondCall] ++ [HTEffect.generateCall]) ++ [HTEffect.dryRunLog] := by
    unfold handleTweet
    rw [hskip, htext, hresp, hne, hdry]
    simp
  rw [heffs]
  refine ⟨List.getLast?_concat _, ?_, ?_, ?_, ?_⟩ <;>
    · intro hmem
      cases henv : env.tweetExists <;> simp [henv] at hmem

/-- Witness for the amended C8 on the concrete dry-run environment. -/
theorem c8_dry_run_witness :
    (handleTweet envC8W tC8).getLast? = some .dryRunLog ∧
      HTEffect.processActions ∉ handleTweet envC8W tC8 ∧
      HTEffect.createReplyMemory ∉ handleTweet envC8W tC8 ∧
      HTEffect.cacheTranscript ∉ handleTweet envC8W tC8 ∧
      HTEffect.waitDelay ∉ handleTweet envC8W tC8 :=
  c8_dry_run envC8W tC8 (by decide) (by decide) (by decide) (by decide) (by decide)

/-- C10 (confirmed): `handleTwitterInteractions` never propagates an
exception to its caller — the whole cycle body (mention fetch,
candidate dispatch, marker persistence) runs inside the one outermost
try/catch whose handler only logs (the Boolean component), so for every
environment the function returns normally with the cycle outcome. -/
theorem c10_no_propagation :
    ∀ env : Env,
      handleTwitterInteractions env = .ok (cycleBody env, (cycleBody env).err) := by
  intro env
  unfold handleTwitterInteractions
  cases h : (cycleBody env).err <;> simp [h]
